import Mathlib

/-!
Shallow embedding of the layout and packing engine of `src/smartppt.py`.

Lengths are rational canvas units (the source uses floating-point arithmetic
on EMU lengths; we work in exact rational arithmetic, the idealised real
semantics the spec describes as "floating-point canvas units, no rounding").
The I/O collaborators (PIL, python-pptx, the file system) are out of scope;
their results are modelled as explicit inputs (`Inspection`, `FolderInput`),
and placement on a slide is modelled as the placed rectangle (`PlacedImage`).
-/

namespace SmartPPT

/-- One image as returned by `robust_read_image` (src/smartppt.py lines
173-188): path, filename, pixel width and height, and the `aspect` field,
which mirrors the source's width/height quotient field (named `ratio` there,
`img.size[0] / img.size[1]`). -/
structure ImageRecord where
  path : String
  filename : String
  width : Nat
  height : Nat
  aspect : ℚ
  deriving DecidableEq

/-- The successful branch of `robust_read_image`: builds the record and sets
the quotient field to width/height. -/
def robust_read_image (p fn : String) (w h : Nat) : ImageRecord :=
  { path := p, filename := fn, width := w, height := h, aspect := (w : ℚ) / (h : ℚ) }

/-- The three classification thresholds (`portrait_threshold`,
`square_min_threshold`, `square_max_threshold` in config, held as
`self.portrait_threshold`, `self.square_min`, `self.square_max`). -/
structure Thresholds where
  portrait_threshold : ℚ
  square_min : ℚ
  square_max : ℚ
  deriving DecidableEq

/-- Default thresholds from `ConfigManager.defaults` (src/smartppt.py lines
48-50): 0.9, 0.9, 1.1. -/
def defaultThresholds : Thresholds :=
  { portrait_threshold := 9/10, square_min := 9/10, square_max := 11/10 }

/-- The two buckets that are ever populated. -/
inductive Bucket where
  | portrait
  | squareOrLandscape
  deriving DecidableEq

/-- The branch structure of `classify_images_in_folder` (src/smartppt.py
lines 202-207) deciding which list one image's record is appended to:
`if ratio <= self.portrait_threshold` → portraits;
`elif self.square_min < ratio < self.square_max` → squares;
`else` (comment: 横版归为方形) → squares. -/
def classify (t : Thresholds) (a : ℚ) : Bucket :=
  if a ≤ t.portrait_threshold then Bucket.portrait
  else if t.square_min < a ∧ a < t.square_max then Bucket.squareOrLandscape
  else Bucket.squareOrLandscape

/-- Result of inspecting one supported-extension file: `robust_read_image`
returns a record on success and `None` on any decode error. -/
inductive Inspection where
  | ok (img : ImageRecord)
  | failure
  deriving DecidableEq

/-- `classify_images_in_folder` (src/smartppt.py lines 190-210) folded over
the inspection results of the folder's supported-extension files, in
directory-listing order: returns (portraits, squares, failed count),
appending each successfully inspected image to exactly one of the two lists
in encounter order. -/
def classify_images_in_folder (t : Thresholds) :
    List Inspection → List ImageRecord × List ImageRecord × Nat
  | [] => ([], [], 0)
  | Inspection.failure :: rest =>
      let r := classify_images_in_folder t rest
      (r.1, r.2.1, r.2.2 + 1)
  | Inspection.ok img :: rest =>
      let r := classify_images_in_folder t rest
      match classify t img.aspect with
      | Bucket.portrait => (img :: r.1, r.2.1, r.2.2)
      | Bucket.squareOrLandscape => (r.1, img :: r.2.1, r.2.2)

/-- The fixed canvas for the run: `page_width`, `page_height`, `margin`,
`gap` and the `image_area_ratio` fraction (field `image_area_frac` here),
all set once in `SmartPPTGenerator.__init__` (src/smartppt.py lines 148-152). -/
structure Canvas where
  page_width : ℚ
  page_height : ℚ
  margin : ℚ
  gap : ℚ
  image_area_frac : ℚ
  deriving DecidableEq

/-- `available_width = self.page_width - (2 * self.margin)`, computed
identically in both slide builders. -/
def availW (c : Canvas) : ℚ := c.page_width - 2 * c.margin

/-- `available_height = self.page_height - (2 * self.margin)`. -/
def availH (c : Canvas) : ℚ := c.page_height - 2 * c.margin

/-- `unified_height = available_height * self.image_area_ratio` before any
scaling. -/
def unifiedH (c : Canvas) : ℚ := availH c * c.image_area_frac

/-- The reference configuration: A3 landscape canvas 42 cm × 29.7 cm
(src/smartppt.py lines 149-150) with the default margin 1.5 cm, gap 1.2 cm
and image area fraction 0.7 (lines 41-43), in cm. -/
def refCanvas : Canvas :=
  { page_width := 42, page_height := 297/10, margin := 3/2, gap := 6/5,
    image_area_frac := 7/10 }

/-- One placed rectangle: the geometric outcome of
`slide.shapes.add_picture(path, left_c, top_c, new_width, new_height)`. -/
structure PlacedImage where
  image : ImageRecord
  left : ℚ
  top : ℚ
  width : ℚ
  height : ℚ
  deriving DecidableEq

/-- Geometry of `add_image_to_slide` (src/smartppt.py lines 260-274): the
aspect-preserving fit-and-center step. `if orig_ratio >= 1` constrain by
width first (`new_width = min(width, height * orig_ratio)`,
`new_height = new_width / orig_ratio`), else constrain by height first
(`new_height = min(height, width / orig_ratio)`,
`new_width = new_height * orig_ratio`); then center:
`left_c = left + (width - new_width) / 2`,
`top_c = top + (height - new_height) / 2`. -/
def add_image_to_slide (img : ImageRecord) (left top width height : ℚ) : PlacedImage :=
  let wh :=
    if 1 ≤ img.aspect then
      let nw := min width (height * img.aspect)
      (nw, nw / img.aspect)
    else
      let nh := min height (width / img.aspect)
      (nh * img.aspect, nh)
  { image := img
    left := left + (width - wh.1) / 2
    top := top + (height - wh.2) / 2
    width := wh.1
    height := wh.2 }

/-- `create_mixed_slide` (src/smartppt.py lines 212-234): one square +
one portrait side by side. Tentative widths `unified_height * ratio`; if
`total_width > available_width` the widths and the unified height are all
multiplied by `scale = available_width / total_width` (the gap is not
rescaled), `total_width` is recomputed, and the block is centered. Returns
the two placed rectangles in order (square first). -/
def create_mixed_slide (c : Canvas) (square_img portrait_img : ImageRecord) :
    List PlacedImage :=
  let square_width := unifiedH c * square_img.aspect
  let portrait_width := unifiedH c * portrait_img.aspect
  let total_width := square_width + c.gap + portrait_width
  let swu :=
    if availW c < total_width then
      let scale := availW c / total_width
      (square_width * scale, portrait_width * scale, unifiedH c * scale)
    else
      (square_width, portrait_width, unifiedH c)
  let square_width := swu.1
  let portrait_width := swu.2.1
  let unified_height := swu.2.2
  let total_width := square_width + c.gap + portrait_width
  let start_x := c.margin + (availW c - total_width) / 2
  let start_y := c.margin + (availH c - unified_height) / 2
  [add_image_to_slide square_img start_x start_y square_width unified_height,
   add_image_to_slide portrait_img (start_x + square_width + c.gap) start_y
     portrait_width unified_height]

/-- The placement loop at the end of `create_portrait_slide`
(src/smartppt.py lines 255-258): walk the images and their widths
left-to-right, advancing `current_x` by each width plus one gap. -/
def placeRow : List ImageRecord → List ℚ → ℚ → ℚ → ℚ → ℚ → List PlacedImage
  | img :: imgs, w :: ws, x, y, uh, g =>
      add_image_to_slide img x y w uh :: placeRow imgs ws (x + w + g) y uh g
  | _, _, _, _, _, _ => []

/-- `create_portrait_slide` (src/smartppt.py lines 236-258): a row of 1-3
portraits. Tentative widths `unified_height * ratio`,
`total_gap = (len - 1) * gap`, `total_width = sum(widths) + total_gap`; if
`total_width > available_width` the unified height is multiplied by
`scale = available_width / total_width` and the widths recomputed (the gaps
are not rescaled); block centered, images placed left-to-right. -/
def create_portrait_slide (c : Canvas) (portrait_imgs : List ImageRecord) :
    List PlacedImage :=
  let image_widths := portrait_imgs.map (fun img => unifiedH c * img.aspect)
  let total_gap := ((portrait_imgs.length : ℚ) - 1) * c.gap
  let total_width := image_widths.sum + total_gap
  let uwt :=
    if availW c < total_width then
      let scale := availW c / total_width
      let uh := unifiedH c * scale
      let ws := portrait_imgs.map (fun img => uh * img.aspect)
      (uh, ws, ws.sum + total_gap)
    else
      (unifiedH c, image_widths, total_width)
  let unified_height := uwt.1
  let image_widths := uwt.2.1
  let total_width := uwt.2.2
  let start_x := c.margin + (availW c - total_width) / 2
  let start_y := c.margin + (availH c - unified_height) / 2
  placeRow portrait_imgs image_widths start_x start_y unified_height c.gap

/-- A page descriptor produced by the per-folder layout loop in
`generate_ppt`: either a mixed page (one square/landscape + one portrait,
lines 340-347) or a portrait row of 1-3 portraits (lines 349-360). -/
inductive PageDescriptor where
  | mixed (square portrait_ : ImageRecord)
  | portraitRow (imgs : List ImageRecord)
  deriving DecidableEq

/-- The ordered images a page holds. -/
def PageDescriptor.images : PageDescriptor → List ImageRecord
  | PageDescriptor.mixed s p => [s, p]
  | PageDescriptor.portraitRow l => l

/-- Phase A, the `while square_idx < len(squares) and portrait_idx <
len(portraits)` loop of `generate_ppt` (src/smartppt.py lines 340-347):
pop one square and one portrait at a time, in order, one mixed page each. -/
def phaseA : List ImageRecord → List ImageRecord → List PageDescriptor
  | s :: ss, p :: ps => PageDescriptor.mixed s p :: phaseA ss ps
  | _, _ => []

/-- Consecutive chunks of at most 3, mirroring the slices
`portraits[start:end]` with `start = portrait_idx + group * 3` and
`end = min(start + 3, len(portraits))` (src/smartppt.py lines 357-358). -/
def chunk3 : List ImageRecord → List (List ImageRecord)
  | [] => []
  | [a] => [[a]]
  | [a, b] => [[a, b]]
  | a :: b :: d :: rest => [a, b, d] :: chunk3 rest

/-- Phase B, the `remaining_portraits` loop of `generate_ppt`
(src/smartppt.py lines 349-360): one portrait-row page per chunk of at most
3 leftover portraits, in order. -/
def phaseB (leftover : List ImageRecord) : List PageDescriptor :=
  (chunk3 leftover).map PageDescriptor.portraitRow

/-- The full per-folder page plan of `generate_ppt` (src/smartppt.py lines
336-360): the mixed pages of Phase A (consuming `min(len(squares),
len(portraits))` elements of each bucket) followed by the portrait rows of
Phase B over the unconsumed portraits. Leftover squares are on no page. -/
def layoutFolder (squares portraits : List ImageRecord) : List PageDescriptor :=
  phaseA squares portraits ++
    phaseB (portraits.drop (min squares.length portraits.length))

/-- Renders one page descriptor to its placed rectangles via the matching
slide builder. -/
def renderPage (c : Canvas) : PageDescriptor → List PlacedImage
  | PageDescriptor.mixed s p => create_mixed_slide c s p
  | PageDescriptor.portraitRow imgs => create_portrait_slide c imgs

/-- The pre-scaling total width of a page holding `imgs`:
`unified_height * (sum of the aspect quotients) + (n - 1) * gap`. This is
the `total_width` both slide builders compare against `available_width`
to decide whether to scale. -/
def tentativeTotalWidth (c : Canvas) (imgs : List ImageRecord) : ℚ :=
  unifiedH c * (imgs.map ImageRecord.aspect).sum + ((imgs.length : ℚ) - 1) * c.gap

/-- A produced page together with the page number attached to it
(`self.add_page_number(slide, total_slide_count)`). -/
structure NumberedPage where
  page : PageDescriptor
  number : Nat
  deriving DecidableEq

/-- Numbering of a folder's pages: `total_slide_count += 1` right before
each page is built, and that value is attached to the page
(src/smartppt.py lines 341-345 and 354-360). -/
def numberPages : Nat → List PageDescriptor → List NumberedPage
  | _, [] => []
  | counter, page :: rest =>
      { page := page, number := counter + 1 } :: numberPages (counter + 1) rest

/-- Per-folder summary status, mirroring the strings appended to
`folder_summary`: the folder did not exist (line 321), held no usable image
(line 332), or was processed, with the number of squares used by Phase A and
the number left unmatched (lines 363-365). -/
inductive FolderStatus where
  | notFound
  | empty
  | processed (usedSquares unmatched : Nat)
  deriving DecidableEq

/-- One `folder_summary` entry: `(folder_name, status_note, folder_slide_count)`. -/
structure FolderResult where
  name : String
  status : FolderStatus
  pageCount : Nat
  deriving DecidableEq

/-- One configured folder as the layout core sees it: either the path does
not exist, or it exists and classification produced the two bucket lists
plus a failed count. -/
inductive FolderInput where
  | missing (name : String)
  | present (name : String) (portraits squares : List ImageRecord) (failed : Nat)
  deriving DecidableEq

/-- The folder loop of `generate_ppt` (src/smartppt.py lines 315-366),
threading `total_slide_count` and returning the numbered page list in
output order plus the `folder_summary` entries in folder order. A missing
folder contributes nothing (line 319-322); a folder with no usable image is
skipped with a zero-page summary (lines 330-333); otherwise the pages are
laid out, numbered consecutively, and the summary records
`min(len(squares), len(portraits))` squares used and
`len(squares) - square_idx` unmatched (lines 363-365). -/
def generate_ppt : List FolderInput → Nat → List NumberedPage × List FolderResult
  | [], _ => ([], [])
  | FolderInput.missing name :: rest, counter =>
      let r := generate_ppt rest counter
      (r.1, { name := name, status := FolderStatus.notFound, pageCount := 0 } :: r.2)
  | FolderInput.present name portraits squares _failed :: rest, counter =>
      if portraits.length + squares.length = 0 then
        let r := generate_ppt rest counter
        (r.1, { name := name, status := FolderStatus.empty, pageCount := 0 } :: r.2)
      else
        let pages := layoutFolder squares portraits
        let numbered := numberPages counter pages
        let used := min squares.length portraits.length
        let r := generate_ppt rest (counter + pages.length)
        (numbered ++ r.1,
         { name := name,
           status := FolderStatus.processed used (squares.length - used),
           pageCount := pages.length } :: r.2)

/-- Sample landscape image: 1000 × 100 pixels, aspect quotient 10. -/
def imgSq : ImageRecord := robust_read_image "d/sq.jpg" "sq.jpg" 1000 100

/-- Second sample square-bucket image: 300 × 200 pixels, aspect quotient 3/2. -/
def imgSq2 : ImageRecord := robust_read_image "d/sq2.jpg" "sq2.jpg" 300 200

/-- Sample portrait image: 100 × 200 pixels, aspect quotient 1/2. -/
def imgPt : ImageRecord := robust_read_image "d/pt.jpg" "pt.jpg" 100 200

/-- Second sample portrait image: 120 × 200 pixels, aspect quotient 3/5. -/
def imgPt2 : ImageRecord := robust_read_image "d/pt2.jpg" "pt2.jpg" 120 200

/-- Third sample portrait image: 140 × 200 pixels, aspect quotient 7/10. -/
def imgPt3 : ImageRecord := robust_read_image "d/pt3.jpg" "pt3.jpg" 140 200

/-- Fourth sample portrait image: 160 × 200 pixels, aspect quotient 4/5. -/
def imgPt4 : ImageRecord := robust_read_image "d/pt4.jpg" "pt4.jpg" 160 200

/-! ### Helper lemmas -/

/-- On a cell whose width is exactly `height * aspect`, the fit-and-center
step of `add_image_to_slide` is the identity on the cell. -/
theorem fit_cell_exact (img : ImageRecord) (x y h : ℚ) (hr : 0 < img.aspect) :
    add_image_to_slide img x y (h * img.aspect) h =
      { image := img, left := x, top := y, width := h * img.aspect, height := h } := by
  have hne : img.aspect ≠ 0 := ne_of_gt hr
  rcases le_or_lt 1 img.aspect with hcase | hcase
  · simp [add_image_to_slide, if_pos hcase, min_self, mul_div_cancel_right₀ _ hne]
  · simp [add_image_to_slide, if_neg (not_le.mpr hcase), mul_div_cancel_right₀ _ hne,
      min_self]

/-- The placed width equals the cell width whenever the cell width is
exactly `height * aspect`. -/
theorem fit_width (img : ImageRecord) (x y w h : ℚ) (hr : 0 < img.aspect)
    (hw : w = h * img.aspect) :
    (add_image_to_slide img x y w h).width = w := by
  subst hw
  rw [fit_cell_exact img x y h hr]

/-- `placeRow` on cells of width `uh * aspect` places each image at exactly
its cell width. -/
theorem placeRow_map_width (uh g : ℚ) (imgs : List ImageRecord) :
    ∀ x y : ℚ, (∀ i ∈ imgs, 0 < i.aspect) →
      (placeRow imgs (imgs.map fun i => uh * i.aspect) x y uh g).map PlacedImage.width =
        imgs.map fun i => uh * i.aspect := by
  induction imgs with
  | nil => intro x y _; rfl
  | cons img rest ih =>
      intro x y hpos
      have h1 : 0 < img.aspect := hpos img (by simp)
      simp [placeRow, fit_cell_exact img x y uh h1,
        ih _ y (fun i hi => hpos i (by simp [hi]))]

/-- Number of chunks: the ceiling of a third of the length. -/
theorem chunk3_length : ∀ l : List ImageRecord, (chunk3 l).length = (l.length + 2) / 3
  | [] => rfl
  | [_] => by simp [chunk3]
  | [_, _] => by simp [chunk3]
  | _ :: _ :: _ :: rest => by
      simp only [chunk3, List.length_cons, chunk3_length rest]
      omega

/-- Chunking loses and reorders nothing. -/
theorem chunk3_flatten : ∀ l : List ImageRecord, (chunk3 l).flatten = l
  | [] => rfl
  | [_] => rfl
  | [_, _] => rfl
  | a :: b :: d :: rest => by
      simp [chunk3, chunk3_flatten rest]

/-- Phase A with no portraits emits nothing. -/
theorem phaseA_nil_right : ∀ s : List ImageRecord, phaseA s [] = []
  | [] => rfl
  | _ :: _ => rfl

/-- Phase A emits one mixed page per matched pair. -/
theorem phaseA_length : ∀ s p : List ImageRecord,
    (phaseA s p).length = min s.length p.length
  | [], p => by simp [phaseA]
  | _ :: _, [] => by simp [phaseA_nil_right]
  | a :: s, b :: p => by
      simp only [phaseA, List.length_cons, phaseA_length s p]
      omega

/-- The k-th mixed page of Phase A pairs the k-th elements of each bucket. -/
theorem phaseA_get (s : List ImageRecord) :
    ∀ (p : List ImageRecord) (k : Nat) (h1 : k < s.length) (h2 : k < p.length),
      (phaseA s p)[k]? = some (PageDescriptor.mixed (s.get ⟨k, h1⟩) (p.get ⟨k, h2⟩)) := by
  induction s with
  | nil => intro p k h1 _; simp at h1
  | cons a s ih =>
      intro p k h1 h2
      cases p with
      | nil => simp at h2
      | cons b p =>
          cases k with
          | zero => simp [phaseA]
          | succ k =>
              simpa [phaseA] using ih p k (by simpa using h1) (by simpa using h2)

/-- Every page Phase A emits is a mixed page. -/
theorem phaseA_all_mixed : ∀ (s p : List ImageRecord), ∀ pg ∈ phaseA s p,
    ∃ a b, pg = PageDescriptor.mixed a b
  | [], p => by simp [phaseA]
  | _ :: _, [] => by simp [phaseA_nil_right]
  | a :: s, b :: p => by
      intro pg hpg
      rcases (by simpa [phaseA] using hpg : pg = PageDescriptor.mixed a b ∨ pg ∈ phaseA s p) with
        h | h
      · exact ⟨a, b, h⟩
      · exact phaseA_all_mixed s p pg h

/-- The images on Phase A's pages are a permutation of the consumed prefixes
of the two buckets. -/
theorem phaseA_flat_perm : ∀ s p : List ImageRecord,
    ((phaseA s p).map PageDescriptor.images).flatten.Perm
      (s.take (min s.length p.length) ++ p.take (min s.length p.length))
  | [], p => by simp [phaseA]
  | _ :: _, [] => by simp [phaseA_nil_right]
  | a :: s, b :: p => by
      have ih := phaseA_flat_perm s p
      simp only [phaseA, List.map_cons, PageDescriptor.images, List.flatten_cons,
        List.length_cons, Nat.succ_min_succ, List.take_succ_cons, List.cons_append,
        List.append_assoc, List.nil_append]
      exact ((ih.cons b).trans List.perm_middle.symm).cons a

/-- The images placed by the whole folder plan are a permutation of the
consumed squares prefix followed by all portraits. -/
theorem layout_flat_perm (s p : List ImageRecord) :
    ((layoutFolder s p).map PageDescriptor.images).flatten.Perm
      (s.take (min s.length p.length) ++ p) := by
  have hcomp : PageDescriptor.images ∘ PageDescriptor.portraitRow = id := by
    funext l; rfl
  have h3 : ((layoutFolder s p).map PageDescriptor.images).flatten
      = ((phaseA s p).map PageDescriptor.images).flatten ++
          p.drop (min s.length p.length) := by
    simp only [layoutFolder, phaseB, List.map_append, List.flatten_append]
    congr 1
    simp only [List.map_map, hcomp, List.map_id]
    exact chunk3_flatten _
  rw [h3]
  have h5 : (s.take (min s.length p.length) ++ p.take (min s.length p.length)) ++
      p.drop (min s.length p.length) = s.take (min s.length p.length) ++ p := by
    rw [List.append_assoc, List.take_append_drop]
  rw [← h5]
  exact (phaseA_flat_perm s p).append_right _

/-- One numbered page per descriptor. -/
theorem numberPages_length : ∀ (c : Nat) (l : List PageDescriptor),
    (numberPages c l).length = l.length
  | _, [] => rfl
  | c, _ :: rest => by simp [numberPages, numberPages_length (c + 1) rest]

/-- The numbers attached by `numberPages` run consecutively from `c + 1`. -/
theorem numberPages_map_number : ∀ (c : Nat) (l : List PageDescriptor),
    (numberPages c l).map NumberedPage.number = List.range' (c + 1) l.length
  | _, [] => rfl
  | c, pg :: rest => by
      simp [numberPages, numberPages_map_number (c + 1) rest, List.range'_succ]

/-- Sum of placed widths on a mixed slide: always at most the available
width, and at most the available width even with the gap added when the
scaling branch is not taken. -/
theorem mixed_width_sum (c : Canvas) (s q : ImageRecord)
    (hA : 0 ≤ availW c) (hg : 0 ≤ c.gap) (hs : 0 < s.aspect) (hq : 0 < q.aspect) :
    ((create_mixed_slide c s q).map PlacedImage.width).sum ≤ availW c ∧
      (tentativeTotalWidth c [s, q] ≤ availW c →
        ((create_mixed_slide c s q).map PlacedImage.width).sum + c.gap ≤ availW c) := by
  have hTt : tentativeTotalWidth c [s, q] =
      unifiedH c * s.aspect + c.gap + unifiedH c * q.aspect := by
    simp [tentativeTotalWidth]
    ring
  rcases lt_or_ge (availW c) (unifiedH c * s.aspect + c.gap + unifiedH c * q.aspect)
    with hcond | hcond
  · have hT0 : 0 < unifiedH c * s.aspect + c.gap + unifiedH c * q.aspect :=
      lt_of_le_of_lt hA hcond
    have hsum : ((create_mixed_slide c s q).map PlacedImage.width).sum
        = unifiedH c * s.aspect *
            (availW c / (unifiedH c * s.aspect + c.gap + unifiedH c * q.aspect))
          + unifiedH c * q.aspect *
            (availW c / (unifiedH c * s.aspect + c.gap + unifiedH c * q.aspect)) := by
      simp only [create_mixed_slide, if_pos hcond, List.map_cons, List.map_nil,
        List.sum_cons, List.sum_nil, add_zero]
      rw [fit_width s _ _ _ _ hs (by ring), fit_width q _ _ _ _ hq (by ring)]
    have hkey : ((create_mixed_slide c s q).map PlacedImage.width).sum ≤ availW c := by
      rw [hsum]
      have heq : unifiedH c * s.aspect *
            (availW c / (unifiedH c * s.aspect + c.gap + unifiedH c * q.aspect))
          + unifiedH c * q.aspect *
            (availW c / (unifiedH c * s.aspect + c.gap + unifiedH c * q.aspect))
          = availW c * ((unifiedH c * s.aspect + unifiedH c * q.aspect) /
              (unifiedH c * s.aspect + c.gap + unifiedH c * q.aspect)) := by
        ring
      rw [heq]
      have hle1 : (unifiedH c * s.aspect + unifiedH c * q.aspect) /
          (unifiedH c * s.aspect + c.gap + unifiedH c * q.aspect) ≤ 1 :=
        (div_le_one hT0).mpr (by linarith)
      exact mul_le_of_le_one_right hA hle1
    refine ⟨hkey, fun ht => ?_⟩
    rw [hTt] at ht
    linarith
  · have hsum : ((create_mixed_slide c s q).map PlacedImage.width).sum
        = unifiedH c * s.aspect + unifiedH c * q.aspect := by
      simp only [create_mixed_slide, if_neg (not_lt.mpr hcond), List.map_cons, List.map_nil,
        List.sum_cons, List.sum_nil, add_zero]
      rw [fit_width s _ _ _ _ hs (by ring), fit_width q _ _ _ _ hq (by ring)]
    constructor
    · rw [hsum]; linarith
    · intro _; rw [hsum]; linarith

/-- Sum of placed widths on a portrait-row slide: always at most the
available width, and at most the available width even with the gaps added
when the scaling branch is not taken. -/
theorem portrait_width_sum (c : Canvas) (imgs : List ImageRecord)
    (hA : 0 ≤ availW c) (hg : 0 ≤ c.gap) (hne : imgs ≠ [])
    (hpos : ∀ i ∈ imgs, 0 < i.aspect) :
    ((create_portrait_slide c imgs).map PlacedImage.width).sum ≤ availW c ∧
      (tentativeTotalWidth c imgs ≤ availW c →
        ((create_portrait_slide c imgs).map PlacedImage.width).sum
            + ((imgs.length : ℚ) - 1) * c.gap ≤ availW c) := by
  have hn1 : (1:ℚ) ≤ (imgs.length : ℚ) := by
    have h := List.length_pos.mpr hne
    exact_mod_cast h
  have hgaps : 0 ≤ ((imgs.length : ℚ) - 1) * c.gap := mul_nonneg (by linarith) hg
  have hms : ∀ u : ℚ, ((imgs.map fun i => u * i.aspect)).sum
      = u * (imgs.map ImageRecord.aspect).sum := fun u =>
    List.sum_map_mul_left imgs ImageRecord.aspect u
  have hW0 : (imgs.map fun img => unifiedH c * img.aspect).sum
      = unifiedH c * (imgs.map ImageRecord.aspect).sum := hms _
  rcases lt_or_ge (availW c)
      ((imgs.map fun img => unifiedH c * img.aspect).sum + ((imgs.length : ℚ) - 1) * c.gap)
    with hcond | hcond
  · have hT0pos : 0 < (imgs.map fun img => unifiedH c * img.aspect).sum
        + ((imgs.length : ℚ) - 1) * c.gap := lt_of_le_of_lt hA hcond
    have hsum : ((create_portrait_slide c imgs).map PlacedImage.width).sum
        = (unifiedH c * (availW c /
            ((imgs.map fun img => unifiedH c * img.aspect).sum
              + ((imgs.length : ℚ) - 1) * c.gap)))
          * (imgs.map ImageRecord.aspect).sum := by
      simp only [create_portrait_slide, if_pos hcond]
      rw [placeRow_map_width _ _ imgs _ _ hpos, hms]
    have hkey : ((create_portrait_slide c imgs).map PlacedImage.width).sum ≤ availW c := by
      rw [hsum]
      have heq : (unifiedH c * (availW c /
            ((imgs.map fun img => unifiedH c * img.aspect).sum
              + ((imgs.length : ℚ) - 1) * c.gap)))
          * (imgs.map ImageRecord.aspect).sum
          = availW c * ((unifiedH c * (imgs.map ImageRecord.aspect).sum) /
              ((imgs.map fun img => unifiedH c * img.aspect).sum
                + ((imgs.length : ℚ) - 1) * c.gap)) := by
        ring
      rw [heq]
      have hle1 : (unifiedH c * (imgs.map ImageRecord.aspect).sum) /
          ((imgs.map fun img => unifiedH c * img.aspect).sum
            + ((imgs.length : ℚ) - 1) * c.gap) ≤ 1 := by
        refine (div_le_one hT0pos).mpr ?_
        rw [hW0]
        linarith
      exact mul_le_of_le_one_right hA hle1
    refine ⟨hkey, fun ht => ?_⟩
    simp only [tentativeTotalWidth] at ht
    rw [hW0] at hcond
    linarith
  · have hsum : ((create_portrait_slide c imgs).map PlacedImage.width).sum
        = unifiedH c * (imgs.map ImageRecord.aspect).sum := by
      simp only [create_portrait_slide, if_neg (not_lt.mpr hcond)]
      rw [placeRow_map_width _ _ imgs _ _ hpos, hms]
    rw [hW0] at hcond
    constructor
    · rw [hsum]; linarith
    · intro _; rw [hsum]; linarith

/-- Folding classification over inspection results that all failed yields
two empty buckets and a failed count equal to the number of files. -/
theorem classify_all_failures (t : Thresholds) :
    ∀ files : List Inspection, (∀ f ∈ files, f = Inspection.failure) →
      classify_images_in_folder t files = ([], [], files.length)
  | [], _ => rfl
  | f :: rest, h => by
      have hf : f = Inspection.failure := h f (by simp)
      subst hf
      simp [classify_images_in_folder,
        classify_all_failures t rest (fun g hg => h g (by simp [hg]))]

/-- The numbers attached to the pages of a whole run started at counter `c`
are consecutive from `c + 1`. -/
theorem generate_ppt_map_number : ∀ (fs : List FolderInput) (c : Nat),
    ((generate_ppt fs c).1.map NumberedPage.number)
      = List.range' (c + 1) (generate_ppt fs c).1.length
  | [], _ => rfl
  | FolderInput.missing name :: rest, c => by
      simpa [generate_ppt] using generate_ppt_map_number rest c
  | FolderInput.present name portraits squares failed :: rest, c => by
      by_cases h : portraits.length + squares.length = 0
      · simpa [generate_ppt, h] using generate_ppt_map_number rest c
      · have ih := generate_ppt_map_number rest (c + (layoutFolder squares portraits).length)
        simp only [generate_ppt, if_neg h, List.map_append, List.length_append,
          numberPages_length, numberPages_map_number, ih]
        have key := List.range'_append (c + 1) (layoutFolder squares portraits).length
          ((generate_ppt rest (c + (layoutFolder squares portraits).length)).1.length) 1
        rw [show c + (layoutFolder squares portraits).length + 1
            = c + 1 + 1 * (layoutFolder squares portraits).length by ring]
        rw [key]
        congr 1
        omega

/-! ### Claim theorems -/

/-- Claim C1: for every folder whose portrait bucket has length `P` and
square-or-landscape bucket has length `S` with `P + S > 0`, the number of
pages produced for that folder is `min(S, P) + ceil(max(0, P - min(S, P)) / 3)`.
In natural subtraction `P - min S P` is `max 0 (P - min S P)`, and
`(x + 2) / 3` is the ceiling of `x / 3`. -/
theorem c1_folder_page_count (squares portraits : List ImageRecord)
    (_h : 0 < squares.length + portraits.length) :
    (layoutFolder squares portraits).length =
      min squares.length portraits.length
        + (portraits.length - min squares.length portraits.length + 2) / 3 := by
  simp [layoutFolder, phaseA_length, phaseB, chunk3_length, List.length_drop]

/-- Witness for C1: one square and four portraits give `1 + ceil(3/3) = 2`
pages. -/
theorem c1_folder_page_count_witness :
    0 < ([imgSq] : List ImageRecord).length
        + ([imgPt, imgPt2, imgPt3, imgPt4] : List ImageRecord).length ∧
    (layoutFolder [imgSq] [imgPt, imgPt2, imgPt3, imgPt4]).length =
      min ([imgSq] : List ImageRecord).length
          ([imgPt, imgPt2, imgPt3, imgPt4] : List ImageRecord).length
        + (([imgPt, imgPt2, imgPt3, imgPt4] : List ImageRecord).length
            - min ([imgSq] : List ImageRecord).length
                ([imgPt, imgPt2, imgPt3, imgPt4] : List ImageRecord).length + 2) / 3 :=
  ⟨by simp, c1_folder_page_count [imgSq] [imgPt, imgPt2, imgPt3, imgPt4] (by simp)⟩

/-- Claim C3: Phase A emits exactly `min(len(squares), len(portraits))`
pages, all of them mixed, the k-th of which holds exactly the k-th
square-or-landscape element and the k-th portrait element in original FIFO
order; and these pages form the prefix of the folder's page list. -/
theorem c3_phase_a_pairing (squares portraits : List ImageRecord) :
    (phaseA squares portraits).length = min squares.length portraits.length ∧
      (∀ pg ∈ phaseA squares portraits, ∃ a b, pg = PageDescriptor.mixed a b) ∧
      (∀ (k : Nat) (h1 : k < squares.length) (h2 : k < portraits.length),
        (phaseA squares portraits)[k]? =
          some (PageDescriptor.mixed (squares.get ⟨k, h1⟩) (portraits.get ⟨k, h2⟩))) ∧
      layoutFolder squares portraits =
        phaseA squares portraits ++
          phaseB (portraits.drop (min squares.length portraits.length)) :=
  ⟨phaseA_length squares portraits, phaseA_all_mixed squares portraits,
   fun k h1 h2 => phaseA_get squares portraits k h1 h2, rfl⟩

/-- Witness for C3: with two squares and one portrait, the first mixed page
pairs the first square with the first portrait. -/
theorem c3_phase_a_pairing_witness :
    (phaseA [imgSq, imgSq2] [imgPt])[0]? = some (PageDescriptor.mixed imgSq imgPt) := by
  have h := (c3_phase_a_pairing [imgSq, imgSq2] [imgPt]).2.2.1 0 (by simp) (by simp)
  simpa using h

/-- Claim C5: the classifier assigns an image to the portrait bucket exactly
when its quotient is at most `portrait_threshold`, and to the
square-or-landscape bucket otherwise (this covers both the square band
`square_min < a < square_max` and everything at or above `square_max`,
since the second and third branches of the source both append to the same
list); no other bucket exists. -/
theorem c5_classifier_buckets (t : Thresholds) (a : ℚ) :
    (a ≤ t.portrait_threshold → classify t a = Bucket.portrait) ∧
      (t.portrait_threshold < a → classify t a = Bucket.squareOrLandscape) ∧
      (classify t a = Bucket.portrait ∨ classify t a = Bucket.squareOrLandscape) := by
  refine ⟨fun h => by simp [classify, h], fun h => ?_, ?_⟩
  · simp [classify, if_neg (not_le.mpr h), ite_self]
  · by_cases h : a ≤ t.portrait_threshold
    · left; simp [classify, h]
    · right; simp [classify, if_neg h, ite_self]

/-- Witness for C5: with the default thresholds, quotient 1/2 goes to the
portrait bucket, and quotients 1 (inside the square band) and 2 (landscape)
both go to the square-or-landscape bucket. -/
theorem c5_classifier_buckets_witness :
    classify defaultThresholds (1/2) = Bucket.portrait ∧
      classify defaultThresholds 1 = Bucket.squareOrLandscape ∧
      classify defaultThresholds 2 = Bucket.squareOrLandscape :=
  ⟨(c5_classifier_buckets defaultThresholds (1/2)).1 (by norm_num [defaultThresholds]),
   (c5_classifier_buckets defaultThresholds 1).2.1 (by norm_num [defaultThresholds]),
   (c5_classifier_buckets defaultThresholds 2).2.1 (by norm_num [defaultThresholds])⟩

/-- Claim C6: across the whole run the page-number counter is incremented
exactly once per emitted page regardless of folder or template: the list of
numbers attached to the pages, in output order, is exactly `1, 2, 3, ...`,
so each page's number equals its position in the final output sequence. -/
theorem c6_page_numbers (fs : List FolderInput) :
    ((generate_ppt fs 0).1.map NumberedPage.number)
      = List.range' 1 (generate_ppt fs 0).1.length :=
  generate_ppt_map_number fs 0

/-- Claim C7: on any cell with positive dimensions, the fit-and-center step
produces a rectangle whose width/height quotient equals the image's own
quotient, that fits inside the cell, is centered in the cell, and is
constrained by width first when the quotient is at least 1 and by height
first otherwise. -/
theorem c7_fit_and_center (img : ImageRecord) (l t w h : ℚ)
    (hw : 0 < w) (hh : 0 < h) (hr : 0 < img.aspect) :
    (add_image_to_slide img l t w h).width / (add_image_to_slide img l t w h).height
        = img.aspect ∧
      (add_image_to_slide img l t w h).width ≤ w ∧
      (add_image_to_slide img l t w h).height ≤ h ∧
      (add_image_to_slide img l t w h).left
          = l + (w - (add_image_to_slide img l t w h).width) / 2 ∧
      (add_image_to_slide img l t w h).top
          = t + (h - (add_image_to_slide img l t w h).height) / 2 ∧
      (1 ≤ img.aspect → (add_image_to_slide img l t w h).width = min w (h * img.aspect)) ∧
      (img.aspect < 1 → (add_image_to_slide img l t w h).height = min h (w / img.aspect)) := by
  rcases le_or_lt 1 img.aspect with hcase | hcase
  · have hwdef : (add_image_to_slide img l t w h).width = min w (h * img.aspect) := by
      simp [add_image_to_slide, if_pos hcase]
    have hhdef : (add_image_to_slide img l t w h).height
        = min w (h * img.aspect) / img.aspect := by
      simp [add_image_to_slide, if_pos hcase]
    have hnw : 0 < min w (h * img.aspect) := lt_min hw (mul_pos hh hr)
    refine ⟨?_, ?_, ?_, ?_, ?_, fun _ => hwdef, fun habs => absurd hcase (not_le.mpr habs)⟩
    · rw [hwdef, hhdef, div_div_eq_mul_div, mul_div_cancel_left₀ _ (ne_of_gt hnw)]
    · rw [hwdef]; exact min_le_left _ _
    · rw [hhdef]
      exact (div_le_iff₀ hr).mpr (min_le_right _ _)
    · simp [add_image_to_slide, if_pos hcase]
    · simp [add_image_to_slide, if_pos hcase]
  · have hwdef : (add_image_to_slide img l t w h).width
        = min h (w / img.aspect) * img.aspect := by
      simp [add_image_to_slide, if_neg (not_le.mpr hcase)]
    have hhdef : (add_image_to_slide img l t w h).height = min h (w / img.aspect) := by
      simp [add_image_to_slide, if_neg (not_le.mpr hcase)]
    have hnh : 0 < min h (w / img.aspect) := lt_min hh (div_pos hw hr)
    refine ⟨?_, ?_, ?_, ?_, ?_, fun habs => absurd habs (not_le.mpr hcase), fun _ => hhdef⟩
    · rw [hwdef, hhdef, mul_div_cancel_left₀ _ (ne_of_gt hnh)]
    · rw [hwdef]
      exact (le_div_iff₀ hr).mp (min_le_right _ _)
    · rw [hhdef]; exact min_le_left _ _
    · simp [add_image_to_slide, if_neg (not_le.mpr hcase)]
    · simp [add_image_to_slide, if_neg (not_le.mpr hcase)]

/-- Witness for C7: landscape image (quotient 10) in a 5 × 5 cell keeps its
quotient. -/
theorem c7_fit_and_center_witness :
    (add_image_to_slide imgSq 0 0 5 5).width / (add_image_to_slide imgSq 0 0 5 5).height
      = imgSq.aspect :=
  (c7_fit_and_center imgSq 0 0 5 5 (by norm_num) (by norm_num)
    (by norm_num [imgSq, robust_read_image])).1

/-- Counterexample to claim C2 as stated: a produced mixed page (one
landscape of quotient 10 paired with one portrait of quotient 1/2, exactly
what the classifier and Phase A produce from those two images) on the
reference canvas has placed widths summing with the gap to more than
`availW + 0.9` cm — not within any small tolerance of `availW` (the gap is
1.2 cm, the margin 1.5 cm). The scaling step divides the widths by
`totalW` (which includes the gap) but never shrinks the gap itself, so
after scaling `sum(widths) + gap = availW + gap * (1 - scale) > availW`. -/
theorem c2_width_invariant_counterexample :
    layoutFolder [imgSq] [imgPt] = [PageDescriptor.mixed imgSq imgPt] ∧
      classify defaultThresholds imgSq.aspect = Bucket.squareOrLandscape ∧
      classify defaultThresholds imgPt.aspect = Bucket.portrait ∧
      ((renderPage refCanvas (PageDescriptor.mixed imgSq imgPt)).map PlacedImage.width).sum
          + refCanvas.gap * ((2:ℚ) - 1)
        > availW refCanvas + 9/10 := by
  refine ⟨rfl, ?_, ?_, ?_⟩
  · norm_num [classify, defaultThresholds, imgSq, robust_read_image]
  · norm_num [classify, defaultThresholds, imgPt, robust_read_image]
  · norm_num [renderPage, create_mixed_slide, add_image_to_slide, refCanvas, availW, availH,
      unifiedH, imgSq, imgPt, robust_read_image]

/-- Claim C2 as amended: for every produced page the sum of the placed
image widths alone is at most `availW`; the stated bound including the gap
term, `sum(widths) + gap * (n - 1) <= availW`, holds whenever the scaling
step is not triggered (tentative total width at most `availW`). When
scaling is triggered the gap term is not rescaled and the total including
gaps exceeds `availW` by `gap * (n - 1) * (1 - scale)` (see the
counterexample), though it never exceeds `availW + gap * (n - 1)`. -/
theorem c2_width_bound_amended (c : Canvas) (p : PageDescriptor)
    (hA : 0 ≤ availW c) (hg : 0 ≤ c.gap) (hne : p.images ≠ [])
    (hpos : ∀ i ∈ p.images, 0 < i.aspect) :
    ((renderPage c p).map PlacedImage.width).sum ≤ availW c ∧
      (tentativeTotalWidth c p.images ≤ availW c →
        ((renderPage c p).map PlacedImage.width).sum
            + ((p.images.length : ℚ) - 1) * c.gap ≤ availW c) := by
  cases p with
  | mixed s q =>
      have hs : 0 < s.aspect := hpos s (by simp [PageDescriptor.images])
      have hq : 0 < q.aspect := hpos q (by simp [PageDescriptor.images])
      have h := mixed_width_sum c s q hA hg hs hq
      refine ⟨h.1, fun ht => ?_⟩
      have h2 := h.2 ht
      show ((create_mixed_slide c s q).map PlacedImage.width).sum
          + (((2:ℕ) : ℚ) - 1) * c.gap ≤ availW c
      norm_num
      linarith
  | portraitRow imgs =>
      exact portrait_width_sum c imgs hA hg hne hpos

/-- Witness for the amended C2: on the counterexample page itself, the sum
of the placed widths alone does fit in the available width. -/
theorem c2_width_bound_amended_witness :
    ((renderPage refCanvas (PageDescriptor.mixed imgSq imgPt)).map PlacedImage.width).sum
      ≤ availW refCanvas :=
  (c2_width_bound_amended refCanvas (PageDescriptor.mixed imgSq imgPt)
    (by norm_num [availW, refCanvas]) (by norm_num [refCanvas])
    (by simp [PageDescriptor.images])
    (by
      intro i hi
      simp only [PageDescriptor.images, List.mem_cons, List.not_mem_nil, or_false] at hi
      rcases hi with h | h <;> subst h <;> norm_num [imgSq, imgPt, robust_read_image])).1

/-- Claim C4: when the classified images of a folder are pairwise distinct,
no image appears on more than one of the folder's pages; every
square-or-landscape element beyond the number of portraits (the unmatched
excess, `squares.drop (min S P)`) appears on no page at all; and the
folder's summary records exactly the count of those excess elements as its
unmatched statistic. -/
theorem c4_no_image_reused (squares portraits : List ImageRecord)
    (h : (squares ++ portraits).Nodup) :
    (((layoutFolder squares portraits).map PageDescriptor.images).flatten).Nodup ∧
      (∀ x ∈ squares.drop (min squares.length portraits.length),
        x ∉ ((layoutFolder squares portraits).map PageDescriptor.images).flatten) ∧
      (∀ (name : String) (failed c : Nat), portraits ≠ [] ∨ squares ≠ [] →
        (generate_ppt [FolderInput.present name portraits squares failed] c).2 =
          [{ name := name,
             status := FolderStatus.processed (min squares.length portraits.length)
               ((squares.drop (min squares.length portraits.length)).length),
             pageCount := (layoutFolder squares portraits).length }]) := by
  have hperm := layout_flat_perm squares portraits
  have hsub : (squares.take (min squares.length portraits.length) ++ portraits).Sublist
      (squares ++ portraits) :=
    (List.take_sublist _ _).append (List.Sublist.refl _)
  have hnodup2 : (squares.take (min squares.length portraits.length) ++ portraits).Nodup :=
    List.Nodup.sublist hsub h
  refine ⟨hperm.nodup_iff.mpr hnodup2, ?_, ?_⟩
  · intro x hx hmem
    have hx' : x ∈ squares.take (min squares.length portraits.length) ++ portraits :=
      hperm.mem_iff.mp hmem
    have hsq : squares.Nodup := (List.nodup_append.mp h).1
    have hdisj : squares.Disjoint portraits := (List.nodup_append.mp h).2.2
    rcases List.mem_append.mp hx' with hin | hin
    · have hsplit : (squares.take (min squares.length portraits.length) ++
          squares.drop (min squares.length portraits.length)).Nodup := by
        rw [List.take_append_drop]; exact hsq
      exact (List.nodup_append.mp hsplit).2.2 hin hx
    · exact hdisj (List.mem_of_mem_drop hx) hin
  · intro name failed c hne
    have hlen : portraits.length + squares.length ≠ 0 := by
      intro h0
      have hp : portraits.length = 0 := by omega
      have hs : squares.length = 0 := by omega
      rcases hne with h1 | h1
      · exact h1 (List.length_eq_zero.mp hp)
      · exact h1 (List.length_eq_zero.mp hs)
    simp [generate_ppt, hlen, List.length_drop]

/-- Witness for C4: two squares and one portrait; the excess second square
is on no page and is counted as the one unmatched image. -/
theorem c4_no_image_reused_witness :
    (((layoutFolder [imgSq, imgSq2] [imgPt]).map PageDescriptor.images).flatten).Nodup ∧
      imgSq2 ∉ ((layoutFolder [imgSq, imgSq2] [imgPt]).map PageDescriptor.images).flatten ∧
      (generate_ppt [FolderInput.present "f" [imgPt] [imgSq, imgSq2] 0] 0).2 =
        [{ name := "f", status := FolderStatus.processed 1 1, pageCount := 1 }] := by
  have h := c4_no_image_reused [imgSq, imgSq2] [imgPt]
    (by norm_num [List.nodup_cons, imgSq, imgSq2, imgPt, robust_read_image,
      ImageRecord.mk.injEq])
  exact ⟨h.1, h.2.1 imgSq2 (by simp), h.2.2 "f" 0 0 (Or.inl (by simp))⟩

/-- Claim C8: a folder whose inspections all fail classifies to two empty
buckets with the failed count equal to the file count, and an existing
folder whose two buckets are both empty is recorded with the Empty status
and zero pages while processing continues unchanged with the next folders
(same remaining pages, results and counter). -/
theorem c8_empty_folder (name : String) (failed c : Nat) (fs : List FolderInput)
    (t : Thresholds) (files : List Inspection)
    (hfail : ∀ f ∈ files, f = Inspection.failure) :
    classify_images_in_folder t files = ([], [], files.length) ∧
      generate_ppt (FolderInput.present name [] [] failed :: fs) c =
        ((generate_ppt fs c).1,
          { name := name, status := FolderStatus.empty, pageCount := 0 } ::
            (generate_ppt fs c).2) :=
  ⟨classify_all_failures t files hfail, by simp [generate_ppt]⟩

/-- Witness for C8: two failed inspections, then the empty folder is
recorded as Empty with zero pages and the following missing folder is still
processed. -/
theorem c8_empty_folder_witness :
    classify_images_in_folder defaultThresholds [Inspection.failure, Inspection.failure]
        = ([], [], 2) ∧
      generate_ppt [FolderInput.present "f" [] [] 2, FolderInput.missing "g"] 0 =
        ([], [{ name := "f", status := FolderStatus.empty, pageCount := 0 },
              { name := "g", status := FolderStatus.notFound, pageCount := 0 }]) := by
  have h := c8_empty_folder "f" 2 0 [FolderInput.missing "g"] defaultThresholds
    [Inspection.failure, Inspection.failure] (by decide)
  exact ⟨h.1, h.2⟩

/-- Claim C9: an existing folder with at least one square-or-landscape
image and no portrait is recorded as processed (not Empty) with zero pages,
zero used squares and all its squares counted unmatched; it emits no page
and leaves the counter unchanged. -/
theorem c9_squares_only_folder (name : String) (failed c : Nat)
    (squares : List ImageRecord) (fs : List FolderInput) (hne : squares ≠ []) :
    generate_ppt (FolderInput.present name [] squares failed :: fs) c =
      ((generate_ppt fs c).1,
        { name := name, status := FolderStatus.processed 0 squares.length,
          pageCount := 0 } :: (generate_ppt fs c).2) := by
  simp [generate_ppt, hne, layoutFolder, phaseA_nil_right, phaseB, chunk3, numberPages]

/-- Witness for C9: one landscape image and no portrait yields zero pages
and one unmatched image, with a processed (not Empty) status. -/
theorem c9_squares_only_folder_witness :
    generate_ppt [FolderInput.present "f" [] [imgSq] 0] 0 =
      ([], [{ name := "f", status := FolderStatus.processed 0 1, pageCount := 0 }]) :=
  c9_squares_only_folder "f" 0 0 [imgSq] [] (by simp)

/-- Claim C10: on a cell whose width equals `height * aspect` exactly — the
cells the two slide builders hand over — the fit-and-center step is the
identity: position and dimensions are returned unchanged, so the geometry
engine's block layout is what is actually placed. -/
theorem c10_fit_identity_on_exact_cell (img : ImageRecord) (l t h : ℚ)
    (hr : 0 < img.aspect) :
    add_image_to_slide img l t (h * img.aspect) h =
      { image := img, left := l, top := t, width := h * img.aspect, height := h } :=
  fit_cell_exact img l t h hr

/-- Witness for C10: portrait image of quotient 1/2 on an exactly matching
cell is placed on that cell unchanged. -/
theorem c10_fit_identity_on_exact_cell_witness :
    add_image_to_slide imgPt 1 2 (6 * imgPt.aspect) 6 =
      { image := imgPt, left := 1, top := 2, width := 6 * imgPt.aspect, height := 6 } :=
  c10_fit_identity_on_exact_cell imgPt 1 2 6 (by norm_num [imgPt, robust_read_image])

end SmartPPT
